import Mathlib

/-!
Verification development for the retrieval and memory-cache engine of a
health-tracking backend (services: ai_memory, ai_cache, health_metrics;
utils: embeddings, vector_search, rag).  Python functions are shallowly
embedded as executable Lean definitions; documents are lists of
characters, timestamps and dates are naturals, vectors are lists of
rationals, and external collaborators (the sentence-transformer model,
json.dumps plus md5, the SQL distance operator, sqrt) are explicit
function parameters, so every definition is computable.
-/

namespace Isidor

/-! ### Python string primitives (character-list model) -/

/-- Characters treated as whitespace by the Python str.strip used on the
ASCII memory documents (space, tab, newline, carriage return, vertical
tab, form feed). -/
def isPySpace (c : Char) : Bool :=
  c == ' ' || c == '\t' || c == '\n' || c == '\r' ||
  c == Char.ofNat 11 || c == Char.ofNat 12

/-- Python str.strip: drop whitespace from both ends. -/
def pyStrip (l : List Char) : List Char :=
  ((l.dropWhile isPySpace).reverse.dropWhile isPySpace).reverse

/-- Index of the first occurrence of the two-character separator
newline-newline, scanning from the front; models Python
str.find for the separator used between memory entries. -/
def findNN : List Char → Option Nat
  | c1 :: c2 :: rest =>
    if c1 = '\n' ∧ c2 = '\n' then some 0
    else (findNN (c2 :: rest)).map (· + 1)
  | _ => none

/-- Python str.find of the separator starting at index k:
lowest index at or after k where newline-newline occurs. -/
def findNNFrom (s : List Char) (k : Nat) : Option Nat :=
  (findNN (s.drop k)).map (· + k)

/-- Python str.split on the newline-newline separator, leftmost and
non-overlapping, via an accumulator (acc holds the current segment
reversed). -/
def splitNNAux : List Char → List Char → List (List Char)
  | [], acc => [acc.reverse]
  | '\n' :: '\n' :: rest, acc => acc.reverse :: splitNNAux rest []
  | c :: rest, acc => splitNNAux rest (c :: acc)

/-- Python summary.split of a document into entry segments. -/
def pySplitNN (s : List Char) : List (List Char) :=
  splitNNAux s []

/-- First index of a character in a list (Python str.find for a
one-character needle, restricted to the case where it occurs). -/
def pyFindChar (c : Char) (l : List Char) : Option Nat :=
  l.findIdx? (· == c)

/-! #### Facts about findNN -/

theorem findNN_some_spec : ∀ (l : List Char) (i : Nat), findNN l = some i →
    i + 2 ≤ l.length ∧ l.drop i = '\n' :: '\n' :: l.drop (i + 2) := by
  intro l
  induction l with
  | nil => intro i h; simp [findNN] at h
  | cons c rest ih =>
    cases rest with
    | nil => intro i h; simp [findNN] at h
    | cons c2 rest2 =>
      intro i h
      simp only [findNN] at h
      split at h
      · next hc =>
        obtain ⟨rfl, rfl⟩ := hc
        cases h
        simp
      · next hc =>
        rw [Option.map_eq_some'] at h
        obtain ⟨j, hj, rfl⟩ := h
        obtain ⟨hlen, hdrop⟩ := ih j hj
        refine ⟨?_, ?_⟩
        · simp only [List.length_cons] at hlen ⊢
          omega
        · simpa [List.drop_succ_cons] using hdrop

theorem findNNFrom_some_spec (s : List Char) (k p : Nat)
    (h : findNNFrom s k = some p) :
    k ≤ p ∧ p + 2 ≤ s.length ∧ s.drop p = '\n' :: '\n' :: s.drop (p + 2) := by
  simp only [findNNFrom, Option.map_eq_some'] at h
  obtain ⟨i, hi, rfl⟩ := h
  obtain ⟨hlen, hdrop⟩ := findNN_some_spec _ _ hi
  have hlen' : i + k + 2 ≤ s.length := by
    have := s.length_drop k
    omega
  refine ⟨Nat.le_add_left _ _, hlen', ?_⟩
  have h1 : s.drop (i + k) = (s.drop k).drop i := by
    rw [List.drop_drop, Nat.add_comm]
  have h2 : s.drop (i + k + 2) = (s.drop k).drop (i + 2) := by
    rw [List.drop_drop]
    congr 1
    omega
  rw [h1, h2, hdrop]

/-! ### MemoryStore: services/ai_memory.py -/

/-- The memory growth cap MAX_MEMORY_CHARS from create_or_update_ai_memory. -/
def MAX_MEMORY_CHARS : Nat := 10000

/-- The entry-boundary separator inserted between appended summaries. -/
def sepNN : List Char := ['\n', '\n']

/-- Timestamped entry text: bracketed timestamp, a space, then the summary. -/
def formatEntry (ts s : List Char) : List Char :=
  '[' :: (ts ++ ']' :: ' ' :: s)

/-- Rendering of the optional context mapping appended to the summary:
a newline, the word Context, and comma-joined key: value items. -/
def renderContextStr (ctx : List (List Char × List Char)) : List Char :=
  "\nContext: ".toList ++
    List.intercalate ", ".toList (ctx.map (fun kv => kv.1 ++ ':' :: ' ' :: kv.2))

/-- create_or_update_ai_memory restricted to its pure document
transformation: mem is the stored summary when one exists, ts the
formatted current timestamp, s the new summary, ctx the optional
context mapping.  On update the new entry is appended after the
separator; if the result exceeds MAX_MEMORY_CHARS the text from the
first separator at or after the overflow cutoff is kept, falling back
to the last 10000 characters when no separator is found; any context
string is appended only after truncation.  On create no truncation
happens at all. -/
def createOrUpdateAIMemory (mem : Option (List Char)) (ts s : List Char)
    (ctx : Option (List (List Char × List Char))) : List Char :=
  let f := formatEntry ts s
  match mem with
  | some existing =>
    let u := existing ++ sepNN ++ f
    let u :=
      if MAX_MEMORY_CHARS < u.length then
        match findNNFrom u (u.length - MAX_MEMORY_CHARS) with
        | some p => u.drop (p + 2)
        | none => u.drop (u.length - MAX_MEMORY_CHARS)
      else u
    match ctx with
    | some c => u ++ renderContextStr c
    | none => u
  | none =>
    match ctx with
    | some c => f ++ renderContextStr c
    | none => f

/-- A whole run of append calls for one owner, starting with no stored
memory, each call passing no context (the plain append path). -/
def runAppends (entries : List (List Char × List Char)) : Option (List Char) :=
  entries.foldl (fun acc p => some (createOrUpdateAIMemory acc p.1 p.2 none)) none

/-- The timestamp extraction step of one extract_key_insights
iteration: when the entry starts with an opening bracket and contains a
closing one, the text between them is handed to parseTs, which models
datetime.strptime with the fixed format and returns none exactly when
the prefix does not parse. -/
def entryTimestamp {τ : Type} (parseTs : List Char → Option τ)
    (entry : List Char) : Option τ :=
  if entry.head? = some '[' ∧ ']' ∈ entry then
    match pyFindChar ']' entry with
    | some k => parseTs ((entry.drop 1).take (k - 1))
    | none => none
  else none

/-- The content slice of one entry: everything after the closing bracket
when a timestamp parsed, the whole entry otherwise. -/
def entryContent {τ : Type} (ts : Option τ) (entry : List Char) : List Char :=
  match ts with
  | some _ =>
    match pyFindChar ']' entry with
    | some k => entry.drop (k + 1)
    | none => entry
  | none => entry

/-- One iteration of the extract_key_insights loop: none when the
iteration appends nothing. -/
def processEntry {τ : Type} (parseTs : List Char → Option τ) (entry : List Char) :
    Option (Option τ × List Char) :=
  if pyStrip entry = [] then none
  else
    let ts := entryTimestamp parseTs entry
    if pyStrip (entryContent ts entry) = [] then none
    else some (ts, pyStrip (entryContent ts entry))

/-- extract_key_insights: split the stored summary on the separator and
process each segment in order, dropping the segments the loop skips. -/
def extractKeyInsights {τ : Type} (parseTs : List Char → Option τ)
    (summary : List Char) : List (Option τ × List Char) :=
  (pySplitNN summary).filterMap (processEntry parseTs)

/-! ### VectorIndex: services/health_metrics.py and utils/vector_search.py

Health-metric rows carry the filterable columns the search touches; the
encrypted value payload appears decrypted (the engine never sees
ciphertext) as the list of its rendered key-value pairs plus a flag
recording whether it is a dictionary at all.  Dates are naturals. -/

structure HealthMetric where
  id : Nat
  user : Nat
  mdate : Nat
  mtype : String
  source : String
  isDict : Bool
  fields : List (String × String)
deriving DecidableEq, Repr

/-- Membership of a key in the decrypted value dictionary. -/
def hasField (m : HealthMetric) (k : String) : Bool :=
  (m.fields.map Prod.fst).contains k

/-- The required-field validation loop at the end of
find_similar_health_metrics: non-dictionary values are skipped, and each
known metric type must carry its required field. -/
def validateMetric (m : HealthMetric) : Bool :=
  m.isDict &&
    (if m.mtype == "sleep" then hasField m "duration_hours"
     else if m.mtype == "activity" then hasField m "steps"
     else if m.mtype == "mood" then hasField m "rating"
     else if m.mtype == "heart_rate" then hasField m "average_bpm"
     else if m.mtype == "blood_pressure" then
       hasField m "systolic" && hasField m "diastolic"
     else if m.mtype == "weight" then hasField m "value"
     else true)

/-- SQL ORDER BY date DESC over the filtered metrics (a stable sort; ties
are returned in an unspecified order by the store, so any fixed stable
order is a faithful model). -/
def sortByDateDesc (l : List HealthMetric) : List HealthMetric :=
  List.insertionSort (fun a b => b.mdate ≤ a.mdate) l

/-- The base query of find_similar_health_metrics: filter by owner,
then optionally by metric type and by start and end date (conjunctive
filters). -/
def metricQueryFilter (corpus : List HealthMetric) (user : Nat)
    (metricType : Option String) (startDate endDate : Option Nat) :
    List HealthMetric :=
  let q := corpus.filter (fun m => m.user == user)
  let q :=
    match metricType with
    | some t => q.filter (fun m => m.mtype == t)
    | none => q
  let q :=
    match startDate with
    | some d => q.filter (fun m => d ≤ m.mdate)
    | none => q
  match endDate with
  | some d => q.filter (fun m => m.mdate ≤ d)
  | none => q

/-- find_similar_health_metrics: run the base query; if nothing
matches return the empty list; otherwise order by date descending,
take the limit, and keep only the records passing validateMetric.  The
queryEmbedding and minSimilarity parameters are accepted but never
used: the implementation skips similarity filtering and returns the
most recent records of the requested type. -/
def findSimilarHealthMetrics (corpus : List HealthMetric) (user : Nat)
    (queryEmbedding : List ℚ) (metricType : Option String) (limit : Nat)
    (minSimilarity : ℚ) (startDate endDate : Option Nat) : List HealthMetric :=
  let q := metricQueryFilter corpus user metricType startDate endDate
  if q.length == 0 then []
  else ((sortByDateDesc q).take limit).filter validateMetric

/-- A row of the ai_memory table: id, owning user, stored embedding. -/
structure MemoryRow where
  id : Nat
  user : Nat
  embedding : List ℚ
deriving DecidableEq, Repr

/-- Ascending sort by the computed distance column (ORDER BY distance). -/
def sortByDist (l : List (MemoryRow × ℚ)) : List (MemoryRow × ℚ) :=
  List.insertionSort (fun a b => a.2 ≤ b.2) l

/-- vector_similarity_search as invoked by find_similar_memories: cosine
distance type (so the query vector is normalized first) and no
filter_conditions, over the ai_memory table.  The pgvector distance
operator and the normalization (which divides by a square root) are
external computations, passed in as dist and normalizeFn.  Every row of
the table is scored; rows beyond maxDist are dropped when a threshold is
given; the rest are ordered by distance and capped at limit. -/
def vectorSimilaritySearchMemories (dist : List ℚ → List ℚ → ℚ)
    (normalizeFn : List ℚ → List ℚ) (table : List MemoryRow) (q : List ℚ)
    (limit : Nat) (maxDist : Option ℚ) : List (MemoryRow × ℚ) :=
  let qv := normalizeFn q
  let scored := table.map (fun m => (m, dist m.embedding qv))
  let kept :=
    match maxDist with
    | some md => scored.filter (fun p => p.2 < md)
    | none => scored
  (sortByDist kept).take limit

/-- find_similar_memories: similarity search over the whole ai_memory
table with max_distance = 1 - min_similarity, then each hit is fetched
again by id and annotated with similarity = 1 - distance.  Note that no
user filter of any kind is applied: the function has no owner
parameter. -/
def findSimilarMemories (dist : List ℚ → List ℚ → ℚ)
    (normalizeFn : List ℚ → List ℚ) (table : List MemoryRow) (q : List ℚ)
    (limit : Nat) (minSimilarity : ℚ) : List (MemoryRow × ℚ) :=
  (vectorSimilaritySearchMemories dist normalizeFn table q limit
      (some (1 - minSimilarity))).filterMap
    (fun r => (table.find? (fun m => m.id == r.1.id)).map (fun m => (m, 1 - r.2)))

/-- The similar_memories list built by get_memory_context for a user:
find_similar_memories with limit 3 and min_similarity 0.6, then filtered
down to the memories whose user_id matches the requesting user. -/
def getMemoryContextSimilar (dist : List ℚ → List ℚ → ℚ)
    (normalizeFn : List ℚ → List ℚ) (table : List MemoryRow) (user : Nat)
    (q : List ℚ) : List (MemoryRow × ℚ) :=
  (findSimilarMemories dist normalizeFn table q 3 (6/10)).filter
    (fun p => p.1.user == user)

/-! ### EmbeddingGenerator: utils/embeddings.py

The sentence-transformer model is an external collaborator; embed
functions are passed as parameters.  Values of the metric mapping appear
as their rendered strings (str or json.dumps of the original value,
both deterministic). -/

/-- The serialized text generate_health_metric_embedding builds before
embedding: the metric type part, the source part, then one key: value
part per mapping item in iteration order, all joined by single
spaces. -/
def healthMetricText (metricType : String) (value : List (String × String))
    (source : String) : String :=
  String.intercalate " "
    (("Metric type: " ++ metricType) :: ("Source: " ++ source) ::
      value.map (fun kv => kv.1 ++ ": " ++ kv.2))

/-- generate_health_metric_embedding: serialize then embed, for any
embedding function (the model call is deterministic in its input
text). -/
def generateHealthMetricEmbedding {E : Type} (embedFn : String → E)
    (metricType : String) (value : List (String × String)) (source : String) : E :=
  embedFn (healthMetricText metricType value source)

/-- np.dot of two vectors (exact rational arithmetic in place of
floats). -/
def dotList (a b : List ℚ) : ℚ :=
  (List.zipWith (· * ·) a b).sum

/-- cosine_similarity: dot product over the product of the L2 norms.
np.linalg.norm is sqrt of the self dot product; sqrt is irrational in
general, so it is passed in as sqrtFn and its defining property is
assumed pointwise where a proof needs it. -/
def cosineSimilarity (sqrtFn : ℚ → ℚ) (a b : List ℚ) : ℚ :=
  dotList a b / (sqrtFn (dotList a a) * sqrtFn (dotList b b))

/-- Cosine distance as the codebase derives it from cosine similarity
(ai_memory converts thresholds with distance = 1 - similarity). -/
def cosineDistance (sqrtFn : ℚ → ℚ) (a b : List ℚ) : ℚ :=
  1 - cosineSimilarity sqrtFn a b

/-! ### ResponseCache: services/ai_cache.py -/

/-- Python sorted on a list of strings (lexicographic by code point). -/
def pySorted (l : List String) : List String :=
  List.insertionSort (· ≤ ·) l

/-- The parameter dictionary hashed by generate_query_hash; kwargs stays
abstract since the claims never inspect it. -/
structure QueryParams (K : Type) where
  query : String
  metricTypes : Option (List String)
  kwargs : K
deriving DecidableEq

/-- Canonicalization of the metric_types parameter in
generate_query_hash: a missing or empty list (both falsy in Python)
becomes null, otherwise the list is sorted. -/
def canonMetricTypes (mts : Option (List String)) : Option (List String) :=
  match mts with
  | none => none
  | some l => if l.isEmpty then none else some (pySorted l)

/-- generate_query_hash: canonicalize the parameters, then hash.  hashFn
models json.dumps with sort_keys followed by md5 hexdigest — a
deterministic function of the parameter record. -/
def generateQueryHash {K H : Type} (hashFn : QueryParams K → H) (query : String)
    (metricTypes : Option (List String)) (kwargs : K) : H :=
  hashFn ⟨query, canonMetricTypes metricTypes, kwargs⟩

/-- A row of ai_cached_responses; time is an integer count of seconds. -/
structure CacheEntry where
  user : Nat
  endpoint : String
  timeFrame : String
  queryHash : String
  responseData : String
  metricTypes : Option (List String)
  expiresAt : Int
deriving DecidableEq, Repr

/-- The WHERE clause of get_cached_response: all four key columns match
and the entry has not yet expired (expires_at strictly in the
future). -/
def cacheMatchFresh (e : CacheEntry) (u : Nat) (ep tf qh : String)
    (now : Int) : Bool :=
  e.user == u && e.endpoint == ep && e.timeFrame == tf &&
    e.queryHash == qh && now < e.expiresAt

/-- get_cached_response: the first stored row matching the key that is
still fresh, else none. -/
def getCachedResponse (store : List CacheEntry) (u : Nat) (ep tf qh : String)
    (now : Int) : Option CacheEntry :=
  store.find? (fun e => cacheMatchFresh e u ep tf qh now)

/-- create_cached_response: build a brand-new entry expiring ttlHours
from now (timedelta in seconds) and append it to the store. -/
def createCachedResponse (store : List CacheEntry) (u : Nat)
    (ep tf qh data : String) (mts : Option (List String)) (ttlHours : Int)
    (now : Int) : CacheEntry × List CacheEntry :=
  let e : CacheEntry :=
    ⟨u, ep, tf, qh, data, mts, now + ttlHours * 3600⟩
  (e, store ++ [e])

/-! ### ContextAssembler: utils/rag.py

retrieve_context_for_user is embedded with its collaborators as inputs:
the per-category search (find_similar_health_metrics applied to the
session, owner, query embedding and date range) becomes searchFn, which
can fail with a store error; the memory context, extracted insights and
active protocols arrive as already-retrieved values.  Python exceptions
are modeled in the Except monad: the source wraps none of the calls in
try/except, so any error propagates. -/

/-- The store failure a category search can raise. -/
inductive StoreErr
  | storeUnavailable
deriving DecidableEq, Repr

/-- The memory context dict returned by get_memory_context, reduced to
the parts the assembler and renderer read. -/
structure MemoryContext where
  hasMemory : Bool
  similarSummaries : List String
  recentSummary : Option String
deriving DecidableEq, Repr

/-- One extracted insight: optional isoformat timestamp and content. -/
structure Insight where
  timestamp : Option String
  content : String
deriving DecidableEq, Repr

/-- One active protocol as the assembler serializes it. -/
structure ProtoInfo where
  name : Option String
  description : Option String
  targetMetrics : Option (List String)
  startDate : Option String
  durationType : Option String
  durationDays : Option Nat
deriving DecidableEq, Repr

/-- The request-scoped retrieval context (the context dict). -/
structure RagContext where
  query : String
  healthMetrics : List (String × List HealthMetric)
  aiMemory : Option MemoryContext
  memoryInsights : List Insight
  activeProtocols : List ProtoInfo
  timeFrame : String
  debugInfo : List (String × String)
deriving DecidableEq, Repr

/-- The per-category retrieval loop: for each requested metric type in
order, run the search; record the found count in the debug entries; add
the category to the context dict only when its result list is
non-empty.  A raised store error aborts the remaining iterations (no
try/except in the source). -/
def retrieveMetricsLoop (searchFn : String → Except StoreErr (List HealthMetric)) :
    List String →
      Except StoreErr (List (String × List HealthMetric) × List (String × String))
  | [] => Except.ok ([], [])
  | t :: ts =>
    match searchFn t with
    | Except.error e => Except.error e
    | Except.ok ms =>
      match retrieveMetricsLoop searchFn ts with
      | Except.error e => Except.error e
      | Except.ok rest =>
        Except.ok
          ((if ms.isEmpty then rest.1 else (t, ms) :: rest.1),
            ("metrics_found_" ++ t, toString ms.length) :: rest.2)

/-- sorted(insights, key timestamp or empty string, reverse) followed by
the cap at 10, as applied to the extracted memory insights. -/
def sortInsightsDesc (l : List Insight) : List Insight :=
  List.insertionSort
    (fun a b => (b.timestamp.getD "") ≤ (a.timestamp.getD "")) l

/-- retrieve_context_for_user: build the context dict.  When no metric
types are requested the owner's distinct stored types are used (and
recorded in the debug entries); the memory context and insights are
attached when has_memory holds; active protocols are attached with a
count debug entry when non-empty. -/
def retrieveContextForUser (searchFn : String → Except StoreErr (List HealthMetric))
    (query : String) (metricTypes availableTypes : List String)
    (memoryCtx : MemoryContext) (insights : List Insight)
    (activeProtocols : List ProtoInfo) (timeFrame : String)
    (dateRange : String) : Except StoreErr RagContext :=
  let types := if metricTypes.isEmpty then availableTypes else metricTypes
  match retrieveMetricsLoop searchFn types with
  | Except.error e => Except.error e
  | Except.ok found =>
    let dbg :=
      ("date_range", dateRange) ::
        ((if metricTypes.isEmpty then
            [("available_metric_types", String.intercalate ", " availableTypes)]
          else []) ++ found.2)
    let aiMem := if memoryCtx.hasMemory then some memoryCtx else none
    let memIns :=
      if memoryCtx.hasMemory then (sortInsightsDesc insights).take 10 else []
    let protos := if activeProtocols.isEmpty then [] else activeProtocols
    let dbg :=
      if activeProtocols.isEmpty then dbg
      else dbg ++ [("active_protocols_count", toString activeProtocols.length)]
    Except.ok
      { query := query, healthMetrics := found.1, aiMemory := aiMem,
        memoryInsights := memIns, activeProtocols := protos,
        timeFrame := timeFrame, debugInfo := dbg }

/-- Python str.title restricted to ASCII: the first letter of each
alphabetic run is uppercased and the rest lowercased (the boolean
tracks whether the previous character was alphabetic). -/
def pyTitleAux : Bool → List Char → List Char
  | _, [] => []
  | prevAlpha, c :: rest =>
    (if c.isAlpha then (if prevAlpha then c.toLower else c.toUpper) else c) ::
      pyTitleAux c.isAlpha rest

/-- Python metric_type.title() used for the category section header. -/
def pyTitle (s : String) : String :=
  ⟨pyTitleAux false s.data⟩

/-- The marker line format_context_for_prompt emits when the context
holds no health metrics at all. -/
def noHealthDataMarker : String :=
  "No relevant health data found for this query.\n\n"

/-- The lines rendered for one metric: date, source, then each rendered
key-value pair of the decrypted value (this search path never attaches a
similarity attribute, so no relevance line appears). -/
def metricLines (m : HealthMetric) : List String :=
  ("- Date: " ++ toString m.mdate) :: ("  Source: " ++ m.source) ::
    m.fields.map (fun kv => "  " ++ kv.1 ++ ": " ++ kv.2)

/-- One category section of the health-data block: skipped entirely when
the category's list is empty, otherwise a title header followed by the
metric lines and a blank spacer. -/
def metricSection (p : String × List HealthMetric) : List String :=
  if p.2.isEmpty then []
  else ("### " ++ pyTitle p.1 ++ " Data\n") ::
    (p.2.flatMap metricLines ++ ["\n"])

/-- The line rendered for one insight: timestamped bullet when both the
timestamp and the content are truthy, plain bullet when only the content
is, nothing otherwise. -/
def insightLine (i : Insight) : Option String :=
  let tsTruthy : Bool :=
    match i.timestamp with
    | some t => t != ""
    | none => false
  if tsTruthy && i.content != "" then
    some ("- [" ++ i.timestamp.getD "" ++ "] " ++ i.content)
  else if i.content != "" then some ("- " ++ i.content)
  else none

/-- The lines rendered for one active protocol. -/
def protoParts (p : ProtoInfo) : List String :=
  ("### " ++ p.name.getD "Unnamed Protocol" ++ "\n") ::
    ((match p.description with
      | some d => ["Description: " ++ d ++ "\n"]
      | none => []) ++
     (match p.targetMetrics with
      | some ts => ["Target Metrics: " ++ String.intercalate ", " ts ++ "\n"]
      | none => []) ++
     (match p.startDate with
      | some d => ["Started: " ++ d ++ "\n"]
      | none => []) ++
     (match p.durationType, p.durationDays with
      | some dt, some dd =>
        ["Duration: " ++ toString dd ++ " days (" ++ dt ++ ")\n"]
      | _, _ => []) ++
     ["\n"])

/-- format_context_for_prompt as the list of prompt_parts it joins with
newlines: header, debug section, active protocols, AI memory, key
insights, and last the health data, which falls back to an explicit
no-relevant-data marker when the context holds no metrics. -/
def formatContextParts (ctx : RagContext) : List String :=
  ["# User Context\n"] ++
  (if ctx.debugInfo.isEmpty then []
   else "## Debug Information\n" ::
     (ctx.debugInfo.map (fun p => "- " ++ p.1 ++ ": " ++ p.2) ++ ["\n"])) ++
  (if ctx.activeProtocols.isEmpty then []
   else "## Active Protocols\n" :: ctx.activeProtocols.flatMap protoParts) ++
  (match ctx.aiMemory with
   | none => []
   | some mc =>
     "## AI Memory\n" ::
       ((match mc.recentSummary with
         | some r => ["### Recent Memory\n", r, "\n"]
         | none => []) ++
        (if mc.similarSummaries.isEmpty then []
         else "### Relevant Past Interactions\n" ::
           (mc.similarSummaries.map (fun s => "- " ++ s) ++ ["\n"])))) ++
  (if ctx.memoryInsights.isEmpty then []
   else "## Key User Insights\n" ::
     (ctx.memoryInsights.filterMap insightLine ++ ["\n"])) ++
  (if ctx.healthMetrics.isEmpty then
     ["## Health Data\n", noHealthDataMarker]
   else "## Relevant Health Data\n" :: ctx.healthMetrics.flatMap metricSection)

/-- The final rendered prompt string. -/
def formatContextForPrompt (ctx : RagContext) : String :=
  String.intercalate "\n" (formatContextParts ctx)

/-! ### Shared helper lemmas -/

/-- The dot product of two vectors is symmetric. -/
theorem dotList_comm (a b : List ℚ) : dotList a b = dotList b a := by
  unfold dotList
  rw [List.zipWith_comm_of_comm (· * ·) mul_comm]

/-! ### Claim C6: cache key derivation is order-invariant -/

/-- Claim C6: two calls to generate_query_hash whose metric_types lists
are permutations of each other (and whose query and remaining keyword
parameters agree) produce the same cache key, because the list is
sorted before the parameter dictionary is serialized and hashed. -/
theorem cache_key_order_invariant {K H : Type} (hashFn : QueryParams K → H)
    (q : String) (kw : K) (l1 l2 : List String) (hperm : l1.Perm l2) :
    generateQueryHash hashFn q (some l1) kw =
      generateQueryHash hashFn q (some l2) kw := by
  unfold generateQueryHash
  have hc : canonMetricTypes (some l1) = canonMetricTypes (some l2) := by
    unfold canonMetricTypes
    by_cases h1 : l1.isEmpty
    · have h2 : l2 = [] := by
        have : l1 = [] := List.isEmpty_iff.mp h1
        subst this
        exact hperm.symm.eq_nil
      simp [h1, h2]
    · have h2 : ¬ l2.isEmpty = true := by
        intro hcon
        have : l2 = [] := List.isEmpty_iff.mp hcon
        subst this
        exact h1 (List.isEmpty_iff.mpr hperm.eq_nil)
      show (if l1.isEmpty = true then none else some (pySorted l1)) =
        if l2.isEmpty = true then none else some (pySorted l2)
      rw [if_neg h1, if_neg h2]
      congr 1
      unfold pySorted
      have hs1 : List.Sorted (· ≤ ·) (List.insertionSort (· ≤ ·) l1) :=
        List.sorted_insertionSort _ l1
      have hs2 : List.Sorted (· ≤ ·) (List.insertionSort (· ≤ ·) l2) :=
        List.sorted_insertionSort _ l2
      have hp : (List.insertionSort (· ≤ ·) l1).Perm
          (List.insertionSort (· ≤ ·) l2) :=
        ((List.perm_insertionSort _ l1).trans hperm).trans
          (List.perm_insertionSort _ l2).symm
      exact List.eq_of_perm_of_sorted hp hs1 hs2
  rw [hc]

/-- Claim C6 witness: the two lists of the scenario. -/
theorem cache_key_order_invariant_witness :
    generateQueryHash
        (fun p : QueryParams Unit =>
          p.query ++ String.intercalate "," (p.metricTypes.getD []))
        "how did I sleep" (some ["a", "b"]) () =
      generateQueryHash
        (fun p : QueryParams Unit =>
          p.query ++ String.intercalate "," (p.metricTypes.getD []))
        "how did I sleep" (some ["b", "a"]) () :=
  cache_key_order_invariant _ _ _ _ _ (by decide)

/-! ### Claim C7: cache get returns none exactly on missing or stale -/

/-- Claim C7: get_cached_response returns none exactly when no stored
entry both matches the four key columns and is unexpired; in
particular, an entry put with a one-hour ttl into an empty cache is not
returned two hours later, and a key that was never cached (no stored
row carries its hash) returns none. -/
theorem cache_get_none_iff_no_fresh :
    (∀ (store : List CacheEntry) (u : Nat) (ep tf qh : String) (now : Int),
      getCachedResponse store u ep tf qh now = none ↔
        store.all (fun e => !cacheMatchFresh e u ep tf qh now) = true) ∧
    (∀ (u : Nat) (ep tf qh data : String) (mts : Option (List String)) (now : Int),
      getCachedResponse (createCachedResponse [] u ep tf qh data mts 1 now).2
        u ep tf qh (now + 7200) = none) ∧
    (∀ (store : List CacheEntry) (u : Nat) (ep tf qh : String) (now : Int),
      store.all (fun e => !(e.queryHash == qh)) = true →
      getCachedResponse store u ep tf qh now = none) := by
  refine ⟨?_, ?_, ?_⟩
  · intro store u ep tf qh now
    simp [getCachedResponse, List.find?_eq_none, List.all_eq_true]
  · intro u ep tf qh data mts now
    simp only [getCachedResponse, createCachedResponse, List.nil_append,
      List.find?_singleton]
    have hfalse : cacheMatchFresh
        ⟨u, ep, tf, qh, data, mts, now + 1 * 3600⟩ u ep tf qh (now + 7200) = false := by
      simp only [cacheMatchFresh, Bool.and_eq_false_iff]
      right
      simp only [decide_eq_false_iff_not, not_lt]
      omega
    rw [hfalse]
    simp
  · intro store u ep tf qh now h
    rw [getCachedResponse, List.find?_eq_none]
    intro e he hfresh
    have hq : (e.queryHash == qh) = false := by
      have := List.all_eq_true.mp h e he
      simpa using this
    simp only [cacheMatchFresh, Bool.and_eq_true] at hfresh
    rw [hq] at hfresh
    simp at hfresh

/-- Claim C7 witness: a concrete one-entry run exercising the
never-cached hypothesis of the third part. -/
theorem cache_get_none_iff_no_fresh_witness :
    getCachedResponse
        [⟨7, "health_insight", "last_day", "abc", "payload", none, 50⟩]
        7 "health_insight" "last_day" "zzz" 0 = none :=
  cache_get_none_iff_no_fresh.2.2
    [⟨7, "health_insight", "last_day", "abc", "payload", none, 50⟩]
    7 "health_insight" "last_day" "zzz" 0 (by decide)

/-! ### Claim C4: structured-record embedding and field order -/

/-- Claim C4 counterexample: the serialization iterates the value
mapping in insertion order without canonicalization, so the same
key-value pairs in two different orders yield different serialized
texts; an embedding function telling the two texts apart (here the
identity on the text, standing for the injective-in-practice model)
yields different embeddings, refuting order-independence.  The two
value lists are permutations of each other, i.e. the same mapping. -/
theorem embedding_order_dependent :
    generateHealthMetricEmbedding (fun s => s) "sleep"
        [("a", "1"), ("b", "2")] "manual" ≠
      generateHealthMetricEmbedding (fun s => s) "sleep"
        [("b", "2"), ("a", "1")] "manual" ∧
    List.Perm [("a", "1"), ("b", "2")] [("b", "2"), ("a", "1")] := by
  refine ⟨by decide, by decide⟩

/-- Claim C4 amended: the embedding is a deterministic function of the
serialized text, so calls whose serialized texts agree produce
identical embeddings for every embedding function; but serialization
depends on the iteration order of the mapping, and logically identical
mappings in different insertion orders can serialize differently. -/
theorem embedding_determinism_amended :
    (∀ (E : Type) (embedFn : String → E) (mt src : String)
        (v1 v2 : List (String × String)),
      healthMetricText mt v1 src = healthMetricText mt v2 src →
      generateHealthMetricEmbedding embedFn mt v1 src =
        generateHealthMetricEmbedding embedFn mt v2 src) ∧
    (∃ v1 v2 : List (String × String), v1.Perm v2 ∧
      healthMetricText "sleep" v1 "manual" ≠ healthMetricText "sleep" v2 "manual") := by
  constructor
  · intro E embedFn mt src v1 v2 h
    unfold generateHealthMetricEmbedding
    rw [h]
  · exact ⟨[("a", "1"), ("b", "2")], [("b", "2"), ("a", "1")],
      by decide, by decide⟩

/-- Claim C4 amended witness: equal serialized texts at a concrete
input give equal embeddings. -/
theorem embedding_determinism_amended_witness :
    generateHealthMetricEmbedding (fun s => s ++ "#") "sleep"
        [("duration_hours", "8")] "manual" =
      generateHealthMetricEmbedding (fun s => s ++ "#") "sleep"
        [("duration_hours", "8")] "manual" :=
  embedding_determinism_amended.1 String (fun s => s ++ "#") "sleep" "manual"
    [("duration_hours", "8")] [("duration_hours", "8")] rfl

/-! ### Claim C9: symmetry and self-distance of cosine distance -/

/-- Claim C9 counterexample: on the all-zero vector the denominator of
cosine_similarity is zero, so the self-distance is not 0: in this exact
rational model (where division by zero yields zero, and sqrt of zero is
zero for any faithful sqrt) the self-distance evaluates to 1, and in
the floating-point source it is NaN — in neither is it 0 within any
tolerance. -/
theorem cosine_self_distance_zero_vector :
    cosineDistance (fun x => x) [(0 : ℚ)] [0] = 1 ∧ (1 : ℚ) ≠ 0 := by
  refine ⟨?_, by norm_num⟩
  simp [cosineDistance, cosineSimilarity, dotList]

/-- Claim C9 amended: cosine distance is symmetric for every pair of
equal-length vectors, and the self-distance is 0 for every vector of
nonzero norm; the all-zero vector (norm zero) is excluded since its
self-similarity divides zero by zero.  sqrtFn is the external square
root, assumed correct at the one point the proof reads it. -/
theorem cosine_distance_symm_amended :
    (∀ (sqrtFn : ℚ → ℚ) (a b : List ℚ), a.length = b.length →
      cosineDistance sqrtFn a b = cosineDistance sqrtFn b a) ∧
    (∀ (sqrtFn : ℚ → ℚ) (a : List ℚ),
      sqrtFn (dotList a a) * sqrtFn (dotList a a) = dotList a a →
      dotList a a ≠ 0 →
      cosineDistance sqrtFn a a = 0) := by
  constructor
  · intro sqrtFn a b _
    unfold cosineDistance cosineSimilarity
    rw [dotList_comm, mul_comm]
  · intro sqrtFn a hsq hnz
    unfold cosineDistance cosineSimilarity
    rw [hsq, div_self hnz]
    ring

/-- Claim C9 amended witness: symmetry at a concrete pair and zero
self-distance at a concrete unit vector. -/
theorem cosine_distance_symm_amended_witness :
    cosineDistance (fun x => x) [(1 : ℚ), 2] [3, 4] =
        cosineDistance (fun x => x) [3, 4] [(1 : ℚ), 2] ∧
      cosineDistance (fun x => x) [(1 : ℚ)] [1] = 0 :=
  ⟨cosine_distance_symm_amended.1 (fun x => x) [(1 : ℚ), 2] [3, 4] (by decide),
   cosine_distance_symm_amended.2 (fun x => x) [(1 : ℚ)] (by norm_num [dotList])
     (by norm_num [dotList])⟩

/-! ### Claim C10: extract_key_insights is total and filtering -/

/-- Inversion for one successful loop iteration: the segment was not
blank and the emitted content is its stripped, non-empty content. -/
theorem processEntry_some_spec {τ : Type} (parseTs : List Char → Option τ)
    (e : List Char) (p : Option τ × List Char)
    (h : processEntry parseTs e = some p) :
    pyStrip e ≠ [] ∧ p.1 = entryTimestamp parseTs e ∧
      p.2 = pyStrip (entryContent p.1 e) ∧ p.2 ≠ [] := by
  simp only [processEntry] at h
  split at h
  · exact absurd h (by simp)
  · next h0 =>
    split at h
    · exact absurd h (by simp)
    · next h1 =>
      cases h
      exact ⟨h0, rfl, rfl, h1⟩

/-- A blank segment contributes nothing to the loop. -/
theorem processEntry_blank {τ : Type} (parseTs : List Char → Option τ)
    (e : List Char) (h : pyStrip e = []) : processEntry parseTs e = none := by
  simp [processEntry, h]

/-- A non-blank segment whose bracketed prefix fails to parse is still
emitted, with no timestamp and its whole stripped text as content. -/
theorem processEntry_unparsed {τ : Type} (parseTs : List Char → Option τ)
    (e : List Char) (h0 : pyStrip e ≠ []) (hhead : e.head? = some '[')
    (hmem : ']' ∈ e)
    (hparse : ∀ k, pyFindChar ']' e = some k →
      parseTs ((e.drop 1).take (k - 1)) = none) :
    processEntry parseTs e = some (none, pyStrip e) := by
  obtain ⟨k, hk⟩ : ∃ k, pyFindChar ']' e = some k := by
    have : (pyFindChar ']' e).isSome := by
      rw [pyFindChar, List.findIdx?_isSome, List.any_eq_true]
      exact ⟨']', hmem, by simp⟩
    exact Option.isSome_iff_exists.mp this
  have hts : entryTimestamp parseTs e = none := by
    rw [entryTimestamp, if_pos ⟨hhead, hmem⟩, hk]
    exact hparse k hk
  rw [processEntry, if_neg h0]
  simp only [hts, entryContent]
  rw [if_neg h0]

/-- Claim C10: extract_key_insights is a total function of the stored
summary (by construction in this embedding, matching the absence of any
raising operation in the loop), every insight it returns has non-empty
stripped content, blank segments between separators contribute nothing,
and a non-blank entry whose leading bracketed timestamp prefix does not
parse is still returned, with no timestamp, rather than dropped. -/
theorem extract_key_insights_total_filtering {τ : Type}
    (parseTs : List Char → Option τ) (summary : List Char) :
    (∀ i ∈ extractKeyInsights parseTs summary, i.2 ≠ []) ∧
    (∀ e ∈ pySplitNN summary, pyStrip e = [] →
      processEntry parseTs e = none) ∧
    (∀ i ∈ extractKeyInsights parseTs summary,
      ∃ e ∈ pySplitNN summary, pyStrip e ≠ [] ∧
        processEntry parseTs e = some i) ∧
    (∀ e ∈ pySplitNN summary, pyStrip e ≠ [] → e.head? = some '[' →
      ']' ∈ e →
      (∀ k, pyFindChar ']' e = some k →
        parseTs ((e.drop 1).take (k - 1)) = none) →
      (none, pyStrip e) ∈ extractKeyInsights parseTs summary) := by
  refine ⟨?_, ?_, ?_, ?_⟩
  · intro i hi
    rw [extractKeyInsights, List.mem_filterMap] at hi
    obtain ⟨e, _, he⟩ := hi
    exact (processEntry_some_spec parseTs e i he).2.2.2
  · intro e _ h
    exact processEntry_blank parseTs e h
  · intro i hi
    rw [extractKeyInsights, List.mem_filterMap] at hi
    obtain ⟨e, hmem, he⟩ := hi
    exact ⟨e, hmem, (processEntry_some_spec parseTs e i he).1, he⟩
  · intro e hmem h0 hhead hbr hparse
    rw [extractKeyInsights, List.mem_filterMap]
    exact ⟨e, hmem, processEntry_unparsed parseTs e h0 hhead hbr hparse⟩

/-- Claim C10 witness: a summary holding one well-formed entry, one
blank segment, and one entry with an unparseable bracketed prefix; the
unparseable entry is returned with no timestamp. -/
theorem extract_key_insights_total_filtering_witness :
    (none, "[bad stamp] hello".toList) ∈
      extractKeyInsights (fun _ => (none : Option Unit))
        "first\n\n   \n\n[bad stamp] hello".toList :=
  (extract_key_insights_total_filtering (fun _ => (none : Option Unit))
        "first\n\n   \n\n[bad stamp] hello".toList).2.2.2
    "[bad stamp] hello".toList (by decide) (by decide) (by decide) (by decide)
    (fun k _ => rfl)

/-! ### Claim C3: memory truncation invariant -/

/-- Any update append without context leaves the stored document within
the cap, whatever the previous length: the truncation branch cuts back
under the cap and the no-truncation branch was already under it. -/
theorem memoryUpdate_length_le (d ts s : List Char) :
    (createOrUpdateAIMemory (some d) ts s none).length ≤ MAX_MEMORY_CHARS := by
  simp only [createOrUpdateAIMemory]
  split
  · next hgt =>
    split
    · next p hp =>
      obtain ⟨h1, h2, _⟩ := findNNFrom_some_spec _ _ _ hp
      rw [List.length_drop]
      omega
    · next hn =>
      rw [List.length_drop]
      omega
  · next hle =>
    omega

/-- Folding further appends keeps the bound, since the last step is an
update. -/
theorem runAppends_from_length_le (xs : List (List Char × List Char)) :
    ∀ (d : List Char), xs ≠ [] → ∀ doc,
      xs.foldl (fun acc p => some (createOrUpdateAIMemory acc p.1 p.2 none))
          (some d) = some doc →
      doc.length ≤ MAX_MEMORY_CHARS := by
  induction xs with
  | nil => intro d h; exact absurd rfl h
  | cons x xs ih =>
    intro d _ doc h
    rw [List.foldl_cons] at h
    by_cases hxs : xs = []
    · subst hxs
      rw [List.foldl_nil] at h
      cases h
      exact memoryUpdate_length_le d x.1 x.2
    · exact ih (createOrUpdateAIMemory (some d) x.1 x.2 none) hxs doc h

/-- Claim C3 counterexample: the very first append for an owner takes
the create branch of create_or_update_ai_memory, which performs no
truncation: a single appended summary of 10000 characters is stored
together with its 22-character timestamp prefix, so the stored document
is longer than MAX_MEMORY_CHARS. -/
theorem memory_create_exceeds_cap :
    MAX_MEMORY_CHARS <
      (createOrUpdateAIMemory none "2025-01-01 00:00:00".toList
          (List.replicate 10000 'a') none).length := by
  have hts : ("2025-01-01 00:00:00".toList).length = 19 := by decide
  simp only [createOrUpdateAIMemory, formatEntry, MAX_MEMORY_CHARS,
    List.length_cons, List.length_append, List.length_replicate, hts]
  omega

/-- Claim C3 amended: the cap only holds from the second append on:
after any run of context-free appends containing at least one update,
the stored document length is at most MAX_MEMORY_CHARS (the initial
create is never truncated, so a single oversized first entry violates
the cap); and whenever the update truncation finds an entry separator
at or after the overflow cutoff, the retained document starts
immediately after that separator (a boundary) — the fallback with no
separator found keeps the raw last 10000 characters instead, which can
start mid-entry. -/
theorem memory_truncation_amended :
    (∀ (e : List Char × List Char) (rest : List (List Char × List Char))
        (doc : List Char), rest ≠ [] → runAppends (e :: rest) = some doc →
      doc.length ≤ MAX_MEMORY_CHARS) ∧
    (∀ (d ts s : List Char) (p : Nat),
      MAX_MEMORY_CHARS < (d ++ sepNN ++ formatEntry ts s).length →
      findNNFrom (d ++ sepNN ++ formatEntry ts s)
          ((d ++ sepNN ++ formatEntry ts s).length - MAX_MEMORY_CHARS) =
        some p →
      d ++ sepNN ++ formatEntry ts s =
        (d ++ sepNN ++ formatEntry ts s).take p ++ sepNN ++
          createOrUpdateAIMemory (some d) ts s none) := by
  constructor
  · intro e rest doc hne h
    rw [runAppends, List.foldl_cons] at h
    exact runAppends_from_length_le rest _ hne doc h
  · intro d ts s p hgt hfind
    obtain ⟨_, _, hdrop⟩ := findNNFrom_some_spec _ _ _ hfind
    have hres : createOrUpdateAIMemory (some d) ts s none =
        (d ++ sepNN ++ formatEntry ts s).drop (p + 2) := by
      simp only [createOrUpdateAIMemory]
      rw [if_pos hgt, hfind]
    rw [hres]
    conv_lhs => rw [← List.take_append_drop p (d ++ sepNN ++ formatEntry ts s)]
    rw [hdrop]
    simp [sepNN]

set_option maxRecDepth 4000 in
/-- Claim C3 amended witness: a two-append run staying under the cap,
and a concrete overflowing update whose cutoff search finds the
separator in front of the oversized new entry. -/
theorem memory_truncation_amended_witness :
    (runAppends
        [("2025-01-01 00:00:00".toList, "first note".toList),
         ("2025-01-02 00:00:00".toList, "second note".toList)] =
        some "[2025-01-01 00:00:00] first note\n\n[2025-01-02 00:00:00] second note".toList ∧
      ("[2025-01-01 00:00:00] first note\n\n[2025-01-02 00:00:00] second note".toList).length ≤
        MAX_MEMORY_CHARS) ∧
    ("x".toList ++ sepNN ++
        formatEntry "2025-01-01 00:00:00".toList (List.replicate 9976 'c') =
      ("x".toList ++ sepNN ++
          formatEntry "2025-01-01 00:00:00".toList
            (List.replicate 9976 'c')).take 1 ++ sepNN ++
        createOrUpdateAIMemory (some "x".toList) "2025-01-01 00:00:00".toList
          (List.replicate 9976 'c') none) := by
  constructor
  · refine ⟨by decide, ?_⟩
    apply memory_truncation_amended.1
      ("2025-01-01 00:00:00".toList, "first note".toList)
      [("2025-01-02 00:00:00".toList, "second note".toList)]
    · decide
    · decide
  · apply memory_truncation_amended.2
    · have hts : ("2025-01-01 00:00:00".toList).length = 19 := by decide
      have hx : ("x".toList).length = 1 := by decide
      simp only [formatEntry, sepNN, MAX_MEMORY_CHARS, List.length_cons,
        List.length_nil, List.length_append, List.length_replicate, hts, hx]
      omega
    · have hlen : ("x".toList ++ sepNN ++
          formatEntry "2025-01-01 00:00:00".toList
            (List.replicate 9976 'c')).length = 10001 := by
        have hts : ("2025-01-01 00:00:00".toList).length = 19 := by decide
        have hx : ("x".toList).length = 1 := by decide
        simp only [formatEntry, sepNN, List.length_cons, List.length_nil,
          List.length_append, List.length_replicate, hts, hx]
      rw [hlen]
      decide

/-! ### Claim C2: category search with a similarity threshold -/

/-- A concrete corpus for the claimed scenario in which one of the
three sleep records carries no duration_hours field: three sleep
records and ten activity records, all owned by user 1. -/
def c2Corpus : List HealthMetric :=
  [⟨1, 1, 101, "sleep", "manual", true, [("duration_hours", "8")]⟩,
   ⟨2, 1, 102, "sleep", "manual", true, [("sleep_score", "90")]⟩,
   ⟨3, 1, 103, "sleep", "manual", true, [("duration_hours", "7")]⟩] ++
  (List.range 10).map
    (fun i => ⟨10 + i, 1, 200 + i, "activity", "manual", true,
      [("steps", "1000")]⟩)

/-- Claim C2 counterexample: against a corpus holding exactly 3 sleep
records (each assumed within the threshold distance; the code never
computes any distance, so the assumption cannot fail) and 10 activity
records for the owner, the search returns only 2 records, because the
sleep record without a duration_hours field is dropped by the
validation loop — not the claimed exactly-3. -/
theorem find_similar_health_metrics_drops_unvalidated :
    ((c2Corpus.filter (fun m => m.user == 1)).filter
        (fun m => m.mtype == "sleep")).length = 3 ∧
    ((c2Corpus.filter (fun m => m.user == 1)).filter
        (fun m => !(m.mtype == "sleep"))).length = 10 ∧
    (findSimilarHealthMetrics c2Corpus 1 [] (some "sleep") 5 (7/10)
        none none).length = 2 :=
  ⟨by decide, by decide, by decide⟩

/-- Claim C2 amended: over any corpus whose owner-and-sleep filter
yields exactly 3 records that all pass the required-field validation
(and whose other records are activity records), the search returns
exactly those 3 records — up to order, since the implementation orders
by date, not by distance — and each returned record is within the
distance cutoff provided the 3 qualifying records were; the similarity
threshold itself is never applied by the code, so the distance bound
holds only by the corpus assumption, and records failing per-type
validation are additionally dropped. -/
theorem category_search_amended (corpus : List HealthMetric) (U : Nat)
    (qe : List ℚ) (S : List HealthMetric) (d : HealthMetric → ℚ) (cutoff : ℚ)
    (hS : (corpus.filter (fun m => m.user == U)).filter
        (fun m => m.mtype == "sleep") = S)
    (hlen : S.length = 3)
    (hval : ∀ m ∈ S, validateMetric m = true)
    (hdist : ∀ m ∈ S, d m ≤ cutoff)
    (hrest : ((corpus.filter (fun m => m.user == U)).filter
        (fun m => !(m.mtype == "sleep"))).length = 10)
    (hact : ∀ m ∈ corpus.filter (fun m => m.user == U),
      m.mtype ≠ "sleep" → m.mtype = "activity") :
    (findSimilarHealthMetrics corpus U qe (some "sleep") 5 (7/10)
        none none).Perm S ∧
    ∀ m ∈ findSimilarHealthMetrics corpus U qe (some "sleep") 5 (7/10)
        none none, d m ≤ cutoff := by
  have hq : metricQueryFilter corpus U (some "sleep") none none = S := by
    simp only [metricQueryFilter]
    exact hS
  have hres : findSimilarHealthMetrics corpus U qe (some "sleep") 5 (7/10)
      none none = sortByDateDesc S := by
    simp only [findSimilarHealthMetrics, hq]
    have hne : (S.length == 0) = false := by
      rw [hlen]
      decide
    rw [hne]
    simp only [Bool.false_eq_true, if_false]
    have hlen2 : (sortByDateDesc S).length = 3 := by
      rw [sortByDateDesc, List.length_insertionSort, hlen]
    rw [List.take_of_length_le (by rw [hlen2]; omega)]
    rw [List.filter_eq_self.mpr]
    intro m hm
    exact hval m ((List.perm_insertionSort _ S).mem_iff.mp hm)
  have hperm : (findSimilarHealthMetrics corpus U qe (some "sleep") 5 (7/10)
      none none).Perm S := by
    rw [hres]
    exact List.perm_insertionSort _ S
  refine ⟨hperm, ?_⟩
  intro m hm
  exact hdist m (hperm.mem_iff.mp hm)

/-- A fully qualifying corpus for the amended claim: the same scenario
with all three sleep records carrying duration_hours. -/
def c2wCorpus : List HealthMetric :=
  [⟨1, 1, 101, "sleep", "manual", true, [("duration_hours", "8")]⟩,
   ⟨2, 1, 102, "sleep", "manual", true, [("duration_hours", "6")]⟩,
   ⟨3, 1, 103, "sleep", "manual", true, [("duration_hours", "7")]⟩] ++
  (List.range 10).map
    (fun i => ⟨10 + i, 1, 200 + i, "activity", "manual", true,
      [("steps", "1000")]⟩)

/-- The three qualifying sleep records of the witness corpus. -/
def c2wSleep : List HealthMetric :=
  [⟨1, 1, 101, "sleep", "manual", true, [("duration_hours", "8")]⟩,
   ⟨2, 1, 102, "sleep", "manual", true, [("duration_hours", "6")]⟩,
   ⟨3, 1, 103, "sleep", "manual", true, [("duration_hours", "7")]⟩]

/-- Claim C2 amended witness: on the fully qualifying corpus the
search returns exactly the three sleep records up to order. -/
theorem category_search_amended_witness :
    (findSimilarHealthMetrics c2wCorpus 1 [] (some "sleep") 5 (7/10)
        none none).Perm c2wSleep :=
  (category_search_amended c2wCorpus 1 [] c2wSleep (fun _ => (0 : ℚ)) 0
    (by decide) (by decide) (by decide) (fun m _ => le_refl 0)
    (by decide) (by decide)).1

/-! ### Claim C1: owner scoping of similarity search -/

/-- Every record surviving the base query belongs to the requested
owner, whatever the optional filters are. -/
theorem metricQueryFilter_user (corpus : List HealthMetric) (user : Nat)
    (mt : Option String) (sd ed : Option Nat) :
    ∀ m ∈ metricQueryFilter corpus user mt sd ed, m.user = user := by
  intro m hm
  cases mt <;> cases sd <;> cases ed <;>
    simp only [metricQueryFilter, List.mem_filter, Bool.and_eq_true,
      beq_iff_eq] at hm <;> tauto

/-- A two-owner memory table in which both rows sit at distance zero
from the query. -/
def c1Table : List MemoryRow :=
  [⟨1, 1, [1]⟩, ⟨2, 2, [1]⟩]

/-- Claim C1 counterexample: find_similar_memories takes no owner
parameter and applies no owner filter, so the memory similarity search
run on behalf of owner 1 (as get_memory_context runs it before its own
after-the-fact filter) returns owner 2's memory row as well: the
returned owners are exactly 1 and 2. -/
theorem find_similar_memories_cross_owner_leak :
    (findSimilarMemories (fun _ _ => (0 : ℚ)) (fun v => v) c1Table [1] 10
        (7/10)).map (fun p => p.1.user) = [1, 2] := by
  have h12 : ((1 : Nat) == 2) = false := rfl
  have h21 : ((2 : Nat) == 1) = false := rfl
  norm_num [findSimilarMemories, vectorSimilaritySearchMemories, sortByDist,
    c1Table, List.insertionSort, List.orderedInsert, List.filter, List.find?,
    List.filterMap_cons, List.filterMap_nil, h12, h21]

/-- Claim C1 amended: the health-metric similarity search filters by
the owner column, so it only ever returns the owner's records, and the
memory context built by get_memory_context filters the memory hits to
the requesting owner after the fact; but find_similar_memories itself
is owner-unscoped and can return other owners' memories to its
callers. -/
theorem owner_scoping_amended :
    (∀ (corpus : List HealthMetric) (user : Nat) (qe : List ℚ)
        (mt : Option String) (limit : Nat) (ms : ℚ) (sd ed : Option Nat),
      ∀ m ∈ findSimilarHealthMetrics corpus user qe mt limit ms sd ed,
        m.user = user) ∧
    (∀ (dist : List ℚ → List ℚ → ℚ) (nf : List ℚ → List ℚ)
        (table : List MemoryRow) (user : Nat) (qe : List ℚ),
      ∀ p ∈ getMemoryContextSimilar dist nf table user qe,
        p.1.user = user) := by
  constructor
  · intro corpus user qe mt limit ms sd ed m hm
    simp only [findSimilarHealthMetrics] at hm
    split at hm
    · exact absurd hm (by simp)
    · have h1 := List.mem_of_mem_filter hm
      have h2 := List.mem_of_mem_take h1
      rw [sortByDateDesc, List.mem_insertionSort] at h2
      exact metricQueryFilter_user corpus user mt sd ed m h2
  · intro dist nf table user qe p hp
    rw [getMemoryContextSimilar, List.mem_filter] at hp
    exact beq_iff_eq.mp hp.2

/-- Claim C1 amended witness: a concrete record returned by each of
the two owner-scoped searches belongs to owner 1. -/
theorem owner_scoping_amended_witness :
    (⟨1, 1, 101, "sleep", "manual", true,
        [("duration_hours", "8")]⟩ : HealthMetric).user = 1 ∧
    (((⟨1, 1, [1]⟩ : MemoryRow), (1 : ℚ)).1).user = 1 := by
  constructor
  · exact owner_scoping_amended.1 c2wCorpus 1 [] (some "sleep") 5 (7/10)
      none none _ (by decide)
  · have hlist : getMemoryContextSimilar (fun _ _ => (0 : ℚ)) (fun v => v)
        c1Table 1 [1] = [(⟨1, 1, [1]⟩, 1)] := by
      have h12 : ((1 : Nat) == 2) = false := rfl
      have h21 : ((2 : Nat) == 1) = false := rfl
      norm_num [getMemoryContextSimilar, findSimilarMemories,
        vectorSimilaritySearchMemories, sortByDist, c1Table,
        List.insertionSort, List.orderedInsert, List.filter, List.find?,
        List.filterMap_cons, List.filterMap_nil, h12, h21]
    refine owner_scoping_amended.2 (fun _ _ => (0 : ℚ)) (fun v => v)
      c1Table 1 [1] ((⟨1, 1, [1]⟩ : MemoryRow), (1 : ℚ)) ?_
    rw [hlist]
    exact List.mem_singleton.mpr rfl

/-! ### Claim C5: a category failure during context assembly -/

/-- The category search used by the counterexample: the sleep search
raises a store error, the activity search succeeds with one record. -/
def c5SearchFn : String → Except StoreErr (List HealthMetric) :=
  fun t =>
    if t = "sleep" then Except.error StoreErr.storeUnavailable
    else Except.ok [⟨20, 1, 300, "activity", "manual", true, [("steps", "1")]⟩]

/-- An empty memory context used by the assembly scenarios. -/
def c5MemCtx : MemoryContext := ⟨false, [], none⟩

/-- Claim C5 counterexample: with the sleep search failing and the
activity search succeeding, the whole assembly returns the store error —
the activity category is not searched into a partial context and no
failure is recorded in the debug counters, because the source wraps the
per-category loop in no exception handler. -/
theorem category_failure_aborts_assembly :
    retrieveContextForUser c5SearchFn "how active was I" ["sleep", "activity"]
        [] c5MemCtx [] [] "last_day" "2025-01-01 to 2025-01-02" =
      Except.error StoreErr.storeUnavailable := by
  rfl

/-- When every category before t succeeds and t fails, the loop stops
at t with that error. -/
theorem retrieveMetricsLoop_error
    (searchFn : String → Except StoreErr (List HealthMetric)) (t : String)
    (e : StoreErr) :
    ∀ (pre post : List String),
      (∀ t2 ∈ pre, ∃ v, searchFn t2 = Except.ok v) →
      searchFn t = Except.error e →
      retrieveMetricsLoop searchFn (pre ++ t :: post) = Except.error e := by
  intro pre
  induction pre with
  | nil =>
    intro post _ hterr
    simp only [List.nil_append, retrieveMetricsLoop]
    rw [hterr]
  | cons x xs ih =>
    intro post h hterr
    obtain ⟨v, hv⟩ := h x (List.mem_cons_self x xs)
    have hrest := ih post (fun t2 ht2 => h t2 (List.mem_cons_of_mem _ ht2)) hterr
    simp only [List.cons_append, retrieveMetricsLoop, List.append_eq]
    rw [hv, hrest]

/-- Claim C5 amended: a store failure in any category's search aborts
the entire context assembly — the error propagates to the caller,
later categories are not merged into any context, and nothing is
recorded in the debug counters, because retrieve_context_for_user
wraps no call in a try block. -/
theorem category_failure_propagates
    (searchFn : String → Except StoreErr (List HealthMetric))
    (query : String) (pre post availableTypes : List String) (t : String)
    (mc : MemoryContext) (ins : List Insight) (protos : List ProtoInfo)
    (tf dr : String) (e : StoreErr)
    (hpre : ∀ t2 ∈ pre, ∃ v, searchFn t2 = Except.ok v)
    (hterr : searchFn t = Except.error e) :
    retrieveContextForUser searchFn query (pre ++ t :: post) availableTypes
        mc ins protos tf dr = Except.error e := by
  have hloop := retrieveMetricsLoop_error searchFn t e pre post hpre hterr
  have hne : ((pre ++ t :: post).isEmpty) = false := by
    cases pre <;> rfl
  simp only [retrieveContextForUser, hne, Bool.false_eq_true, if_false, hloop]

/-- Claim C5 amended witness: a concrete two-category assembly in which
the second category fails aborts with the store error. -/
theorem category_failure_propagates_witness :
    retrieveContextForUser
        (fun t => if t = "activity"
          then Except.ok [⟨21, 1, 301, "activity", "manual", true,
            [("steps", "2")]⟩]
          else Except.error StoreErr.storeUnavailable)
        "how did I sleep" ["activity", "sleep"] [] c5MemCtx [] []
        "last_week" "2025-01-01 to 2025-01-08" =
      Except.error StoreErr.storeUnavailable :=
  category_failure_propagates
    (fun t => if t = "activity"
      then Except.ok [⟨21, 1, 301, "activity", "manual", true,
        [("steps", "2")]⟩]
      else Except.error StoreErr.storeUnavailable)
    "how did I sleep" ["activity"] [] [] "sleep" c5MemCtx [] []
    "last_week" "2025-01-01 to 2025-01-08" StoreErr.storeUnavailable
    (by
      intro t2 ht2
      rw [List.mem_singleton] at ht2
      subst ht2
      exact ⟨_, rfl⟩)
    rfl

/-! ### Claim C8: empty categories are omitted, no data is marked -/

/-- Categories whose search returned nothing never enter the context
dictionary built by the retrieval loop. -/
theorem retrieveMetricsLoop_entries_nonempty
    (searchFn : String → Except StoreErr (List HealthMetric)) :
    ∀ (types : List String) (hm : List (String × List HealthMetric))
      (dbg : List (String × String)),
      retrieveMetricsLoop searchFn types = Except.ok (hm, dbg) →
      ∀ p ∈ hm, p.2 ≠ [] := by
  intro types
  induction types with
  | nil =>
    intro hm dbg h p hp
    simp only [retrieveMetricsLoop, Except.ok.injEq, Prod.mk.injEq] at h
    rw [← h.1] at hp
    simp at hp
  | cons t ts ih =>
    intro hm dbg h p hp
    simp only [retrieveMetricsLoop] at h
    cases hsf : searchFn t with
    | error e => rw [hsf] at h; exact Except.noConfusion h
    | ok ms =>
      rw [hsf] at h
      cases hloop : retrieveMetricsLoop searchFn ts with
      | error e => rw [hloop] at h; exact Except.noConfusion h
      | ok rest =>
        rw [hloop] at h
        simp only [Except.ok.injEq, Prod.mk.injEq] at h
        rw [← h.1] at hp
        by_cases hempty : ms.isEmpty
        · rw [if_pos hempty] at hp
          exact ih rest.1 rest.2 (by rw [hloop]) p hp
        · rw [if_neg hempty] at hp
          rcases List.mem_cons.mp hp with hp1 | hp2
          · subst hp1
            simpa using hempty
          · exact ih rest.1 rest.2 (by rw [hloop]) p hp2

/-- A run in which every category search returns nothing produces an
empty context dictionary. -/
theorem retrieveMetricsLoop_all_empty
    (searchFn : String → Except StoreErr (List HealthMetric)) :
    ∀ (types : List String), (∀ t ∈ types, searchFn t = Except.ok []) →
      ∃ dbg, retrieveMetricsLoop searchFn types = Except.ok ([], dbg) := by
  intro types
  induction types with
  | nil => exact fun _ => ⟨[], rfl⟩
  | cons t ts ih =>
    intro h
    obtain ⟨dbg, hd⟩ := ih (fun t2 ht2 => h t2 (List.mem_cons_of_mem _ ht2))
    refine ⟨("metrics_found_" ++ t, toString (List.length ([] : List HealthMetric))) :: dbg, ?_⟩
    simp only [retrieveMetricsLoop, h t (List.mem_cons_self t ts), hd]
    rfl

/-- The explicit marker is rendered whenever the context holds no
health metrics. -/
theorem marker_mem_formatContextParts (ctx : RagContext)
    (h : ctx.healthMetrics = []) :
    noHealthDataMarker ∈ formatContextParts ctx := by
  rw [formatContextParts]
  refine List.mem_append_right _ ?_
  rw [h]
  simp

/-- Claim C8: in any successfully assembled context, every category
present in the health-metrics dictionary has at least one record (a
category yielding zero qualifying records is omitted, so the renderer
emits no empty category section for it); whenever the dictionary is
empty the rendered prompt parts contain the explicit no-relevant-data
marker; and in particular for an owner with no records in any category
the assembled context has an empty dictionary and the marker is
rendered. -/
theorem render_omits_empty_and_marks_no_data
    (searchFn : String → Except StoreErr (List HealthMetric))
    (query : String) (metricTypes availableTypes : List String)
    (mc : MemoryContext) (ins : List Insight) (protos : List ProtoInfo)
    (tf dr : String) (ctx : RagContext)
    (hok : retrieveContextForUser searchFn query metricTypes availableTypes
        mc ins protos tf dr = Except.ok ctx) :
    (∀ p ∈ ctx.healthMetrics, p.2 ≠ []) ∧
    (ctx.healthMetrics = [] →
      noHealthDataMarker ∈ formatContextParts ctx) ∧
    ((∀ t, searchFn t = Except.ok []) →
      ctx.healthMetrics = [] ∧
        noHealthDataMarker ∈ formatContextParts ctx) := by
  simp only [retrieveContextForUser] at hok
  cases hloop : retrieveMetricsLoop searchFn
      (if metricTypes.isEmpty = true then availableTypes else metricTypes) with
  | error e => rw [hloop] at hok; exact Except.noConfusion hok
  | ok found =>
    rw [hloop] at hok
    simp only [Except.ok.injEq] at hok
    have hctx : ctx.healthMetrics = found.1 := by
      rw [← hok]
    refine ⟨?_, ?_, ?_⟩
    · rw [hctx]
      exact retrieveMetricsLoop_entries_nonempty searchFn _ found.1 found.2
        (by rw [hloop])
    · exact fun h => marker_mem_formatContextParts ctx h
    · intro hall
      obtain ⟨dbg, hempty⟩ := retrieveMetricsLoop_all_empty searchFn
        (if metricTypes.isEmpty = true then availableTypes else metricTypes)
        (fun t _ => hall t)
      rw [hloop] at hempty
      simp only [Except.ok.injEq] at hempty
      have h1 : ctx.healthMetrics = [] := by
        rw [hctx, hempty]
      exact ⟨h1, marker_mem_formatContextParts ctx h1⟩

/-- The context assembled for an owner with no stored records of any
category in the witness scenario. -/
def c8Ctx : RagContext :=
  { query := "how did I sleep", healthMetrics := [], aiMemory := none,
    memoryInsights := [], activeProtocols := [], timeFrame := "last_day",
    debugInfo := [("date_range", "2025-01-01 to 2025-01-02"),
      ("metrics_found_sleep", "0"), ("metrics_found_activity", "0")] }

/-- Claim C8 witness: an owner with no stored records of any category
yields a context with an empty dictionary whose rendering contains the
no-relevant-data marker. -/
theorem render_omits_empty_and_marks_no_data_witness :
    retrieveContextForUser (fun _ => Except.ok []) "how did I sleep"
        ["sleep", "activity"] [] c5MemCtx [] [] "last_day"
        "2025-01-01 to 2025-01-02" = Except.ok c8Ctx ∧
      c8Ctx.healthMetrics = [] ∧
      noHealthDataMarker ∈ formatContextParts c8Ctx := by
  refine ⟨by rfl, rfl, ?_⟩
  exact ((render_omits_empty_and_marks_no_data (fun _ => Except.ok [])
      "how did I sleep" ["sleep", "activity"] [] c5MemCtx [] [] "last_day"
      "2025-01-01 to 2025-01-02" c8Ctx (by rfl)).2.2 (fun _ => rfl)).2

end Isidor
